import Mathlib

/-!
Shallow embedding of the video ingest pipeline from `src/api/videos.ts`
(`handlerUploadVideo`, `getVideoAspectRatio`, `processVideoForFastStart`).

Modelling conventions:
* Machine numbers are `Nat`/`Int`/`Rat`.  The source computes the aspect
  ratio `width / height` in IEEE-754 doubles; we model it as an exact
  rational.  The two agree on the classification outcome for all integer
  width/height pairs exercised here (checked numerically on the floor
  boundaries), and the spec itself states the rules in exact floor terms.
* JavaScript `undefined` field values and the resulting `NaN`/`Infinity`
  arithmetic are modelled explicitly (`JsVal`, `jsDiv`): a non-finite ratio
  makes both floor comparisons false, exactly as `Math.floor(NaN) === 16`
  is false in JS.
* The filesystem is a map from paths to opaque contents (`FS`).  `delete`
  has unlink semantics: deleting a missing path is an error (`enoent`),
  matching `Bun.file(path).delete()` which rejects with `ENOENT`.
* External processes (`ffprobe`, `ffmpeg`) and the S3 upload are modelled
  by their observable results, supplied as parameters (`ProcResult`,
  `RemuxRun`, `uploadOk`): the embedded functions consume those results
  exactly the way the source consumes exit code / stdout / stderr.
* Each `throw` site of the source is mapped to a distinct constructor of
  `IngestError`, named after the spec's error taxonomy (§7).
-/

namespace VideoIngest

/-- Geometry category returned by `getVideoAspectRatio` (the source returns
the strings "landscape" / "portrait" / "other"). -/
inductive Category
  | landscape
  | portrait
  | other
deriving DecidableEq, Repr

/-- String value of a category, as returned by the source function. -/
def Category.str : Category → String
  | .landscape => "landscape"
  | .portrait => "portrait"
  | .other => "other"

/-- Classification of an aspect ratio, from `getVideoAspectRatio`
(src/api/videos.ts lines 178-187):
`if (Math.floor(ratio * 9) === 16) return 'landscape';
 else if (Math.floor(ratio * 16) === 9) return 'portrait';
 return 'other';` -/
def classifyRatio (ratio : ℚ) : Category :=
  if ⌊ratio * 9⌋ = 16 then .landscape
  else if ⌊ratio * 16⌋ = 9 then .portrait
  else .other

/-- JavaScript value of the `width` / `height` fields of a probed stream:
a number, or `undefined` (field absent) / a non-numeric value whose
numeric coercion is `NaN`. -/
inductive JsVal
  | num (q : ℚ)
  | undef
deriving DecidableEq, Repr

/-- JavaScript division `width / height`.  `none` stands for a non-finite
result (`NaN` when an operand is undefined/non-numeric or for `0/0`,
`±Infinity` for division of a nonzero number by zero). -/
def jsDiv : JsVal → JsVal → Option ℚ
  | .num a, .num b => if b = 0 then none else some (a / b)
  | _, _ => none

/-- Classification applied to a possibly non-finite ratio.  For a
non-finite ratio (`none`) both `Math.floor(ratio*9) === 16` and
`Math.floor(ratio*16) === 9` are false in JS, so the result is `other`. -/
def classifyJs : Option ℚ → Category
  | some r => classifyRatio r
  | none => .other

/-- First video stream of the parsed ffprobe JSON output. -/
structure ProbeStream where
  width : JsVal
  height : JsVal
deriving DecidableEq, Repr

/-- Parsed ffprobe stdout: `{ streams: [ { width, height }, ... ] }`. -/
structure ProbeOutput where
  streams : List ProbeStream
deriving DecidableEq, Repr

/-- Error taxonomy.  Each constructor corresponds to one `throw` site of
the source (spec §7 names in parentheses):
* `invalidVideoId` — missing `videoId` path parameter;
* `recordNotFound` — `getVideo` returned nothing (`RecordNotFound`);
* `ownershipMismatch` — `video.userID !== userID` (`OwnershipMismatch`);
* `fileMissing` — form field `video` is not a `File`;
* `payloadTooLarge` — `file.size > MAX_UPLOAD_SIZE` (`PayloadTooLarge`);
* `unsupportedMediaType` — `mediaType !== 'video/mp4'` (`UnsupportedMediaType`);
* `toolFailure msg` — `throw new Error(...)` on non-zero ffprobe/ffmpeg
  exit, carrying the message built from the captured stderr
  (`ExternalToolFailure`);
* `jsTypeError` — JS `TypeError` from `result.streams[0].width` when the
  probe reports zero streams;
* `uploadFailure` — the S3 write rejected (`UploadFailure`);
* `enoent path` — a `delete()` of a non-existent path rejected. -/
inductive IngestError
  | invalidVideoId
  | recordNotFound
  | ownershipMismatch
  | fileMissing
  | payloadTooLarge
  | unsupportedMediaType
  | toolFailure (msg : String)
  | jsTypeError
  | uploadFailure
  | enoent (path : String)
deriving DecidableEq, Repr

/-- Observable result of one external process invocation: exit code and
the fully captured stdout (already JSON-parsed) and stderr. -/
structure ProcResult where
  exitCode : Int
  stdout : ProbeOutput
  stderr : String
deriving DecidableEq, Repr

/-- Embedding of `getVideoAspectRatio` (src/api/videos.ts lines 145-187):
throws on non-zero ffprobe exit with message `ffprobe error: <stderr>`;
otherwise reads `result.streams[0].width/height` (a `TypeError` when the
stream list is empty) and classifies the ratio. -/
def getVideoAspectRatio (p : ProcResult) : Except IngestError Category :=
  if p.exitCode ≠ 0 then
    .error (.toolFailure ("ffprobe error: " ++ p.stderr))
  else
    match p.stdout.streams with
    | [] => .error .jsTypeError
    | s :: _ => .ok (classifyJs (jsDiv s.width s.height))

/-- Filesystem state: a map from paths to opaque file contents. -/
def FS : Type := String → Option ℕ

/-- Writing a file (`Bun.write` / the ffmpeg output): creates or silently
overwrites the path. -/
def fsWrite (path : String) (content : ℕ) (fs : FS) : FS :=
  fun q => if q = path then some content else fs q

/-- Deleting a file (`Bun.file(path).delete()`): unlink semantics, an
error (`ENOENT` rejection) when the path does not exist. -/
def fsDelete (path : String) (fs : FS) : Except IngestError FS :=
  match fs path with
  | some _ => .ok (fun q => if q = path then none else fs q)
  | none => .error (.enoent path)

/-- Observable result of one ffmpeg invocation: exit code, captured
stderr, and the contents the tool writes to its output path on success. -/
structure RemuxRun where
  exitCode : Int
  stderr : String
  content : ℕ

/-- Embedding of `processVideoForFastStart` (src/api/videos.ts lines
189-218): the output path is the sibling `<input>.processed.mp4`; the
ffmpeg command reads the input and writes only that output path; throws
`FFmpeg error: <stderr>` on non-zero exit, else returns the output path. -/
def processVideoForFastStart (inputFilePath : String) (tool : RemuxRun) (fs : FS) :
    Except IngestError (String × FS) :=
  let processedFilePath := inputFilePath ++ ".processed.mp4"
  if tool.exitCode ≠ 0 then
    .error (.toolFailure ("FFmpeg error: " ++ tool.stderr))
  else
    .ok (processedFilePath, fsWrite processedFilePath tool.content fs)

/-- Hexadecimal digit character for a value below 16 (lowercase, as
produced by `Buffer.toString('hex')`). -/
def hexChar (n : ℕ) : Char :=
  if n < 10 then Char.ofNat (48 + n) else Char.ofNat (87 + n)

/-- Two hex characters of one byte, high nibble first. -/
def byteToHex (b : ℕ) : List Char :=
  [hexChar (b / 16 % 16), hexChar (b % 16)]

/-- Lowercase hex string of a byte list, as `randomBytes(n).toString('hex')`
produces it. -/
def bytesToHex (bs : List ℕ) : String :=
  ⟨(bs.map byteToHex).flatten⟩

/-- Modelled from the spec: `mediaTypeToExt` is imported from
`src/api/assets`, which is not present under `src/`.  Per spec §3 the
storage key ends in an "extension derived from the media type" and per the
§8 key regex and scenario A that extension is `.mp4` for the single
supported type `video/mp4` (the only argument the handler ever passes,
guarded by the media-type check). -/
def mediaTypeToExt (mediaType : String) : String :=
  if mediaType = "video/mp4" then ".mp4" else ""

/-- Video record row, as far as the handler reads or writes it
(`userID` for the ownership check, `videoURL` for the final update; the
other columns are never touched by this handler). -/
structure Video where
  userID : String
  videoURL : Option String
deriving DecidableEq, Repr

/-- Configuration the handler reads: the S3 bucket and region, and the
database modelled as the map `getVideo(cfg.db, ·)`. -/
structure ApiConfig where
  s3Bucket : String
  s3Region : String
  db : String → Option Video

/-- Upload request, as far as the handler reads it.  `userID` is the
identity `validateJWT` yields; the bearer-token / JWT collaborator is out
of core scope and modelled as succeeding.  `filePresent` is whether
`formData.get('video')` is a `File`; `fileSize`, `fileType`, `fileContent`
are that file's size, declared media type, and opaque bytes. -/
structure UploadRequest where
  videoId : Option String
  userID : String
  filePresent : Bool
  fileSize : ℕ
  fileType : String
  fileContent : ℕ

/-- External nondeterminism of one ingest: the bytes of the two
`randomBytes` calls, the observable ffprobe result, the observable ffmpeg
result, and whether the S3 write succeeds. -/
structure IngestEnv where
  tempRand : List ℕ
  keyRand : List ℕ
  probe : ProcResult
  remux : RemuxRun
  uploadOk : Bool

/-- Temp file path staged in step 8 of the handler:
`/tmp/video-${randomBytes(16).toString('hex')}.mp4`. -/
def tempFilePathOf (env : IngestEnv) : String :=
  "/tmp/video-" ++ bytesToHex env.tempRand ++ ".mp4"

/-- Upload limit from the source: `const MAX_UPLOAD_SIZE = 1 << 30`. -/
def MAX_UPLOAD_SIZE : ℕ := 1 <<< 30

/-- Values produced by a try-block run that reaches the final
`respondWithJSON(200, video)`: the updated record, the S3 object key the
upload wrote to, and the public address attached to the record. -/
structure BodyOk where
  video : Video
  fileKey : String
  videoURL : String
deriving DecidableEq, Repr

/-- State after a run of the try block: its result, the filesystem it
left behind, and the list of `updateVideo` writes it performed (each
element is the `videoURL` written). -/
structure BodyOut where
  result : Except IngestError BodyOk
  fs : FS
  recordWrites : List String

/-- Embedding of the try block of `handlerUploadVideo` (src/api/videos.ts
lines 116-137): classify, remux, upload under the derived key, build the
public address, attach it to the record and persist via `updateVideo`. -/
def handlerBody (cfg : ApiConfig) (req : UploadRequest) (env : IngestEnv)
    (video : Video) (tempFilePath : String) (fs : FS) : BodyOut :=
  match getVideoAspectRatio env.probe with
  | .error e => ⟨.error e, fs, []⟩
  | .ok aspectRatio =>
    match processVideoForFastStart tempFilePath env.remux fs with
    | .error e => ⟨.error e, fs, []⟩
    | .ok (_processedFilePath, fs1) =>
      let fileKey :=
        aspectRatio.str ++ "/" ++ bytesToHex env.keyRand ++ mediaTypeToExt req.fileType
      if env.uploadOk then
        let videoURL :=
          "https://" ++ cfg.s3Bucket ++ ".s3." ++ cfg.s3Region ++ ".amazonaws.com/" ++ fileKey
        let video1 := { video with videoURL := some videoURL }
        ⟨.ok ⟨video1, fileKey, videoURL⟩, fs1, [videoURL]⟩
      else
        ⟨.error .uploadFailure, fs1, []⟩

/-- State after the `finally` block: the first delete error (if any) and
the filesystem reached when the block ended. -/
structure CleanupOut where
  err : Option IngestError
  fs : FS

/-- Embedding of the `finally` block (src/api/videos.ts lines 138-142):
delete `tempFilePath`, then delete `tempFilePath ++ ".processed"`.  The
deletes are unguarded, so the first error aborts the block and is
reported; the filesystem reached so far is kept. -/
def cleanup (tempFilePath : String) (fs : FS) : CleanupOut :=
  match fsDelete tempFilePath fs with
  | .error e => ⟨some e, fs⟩
  | .ok fs1 =>
    match fsDelete (tempFilePath ++ ".processed") fs1 with
    | .error e => ⟨some e, fs1⟩
    | .ok fs2 => ⟨none, fs2⟩

/-- Overall outcome of one handler call: the value returned to the HTTP
layer (the updated record on 200) or the thrown error, the final
filesystem, and the list of `updateVideo` writes. -/
structure Outcome where
  result : Except IngestError Video
  fs : FS
  recordWrites : List String

/-- Embedding of `handlerUploadVideo` (src/api/videos.ts lines 67-143).
Validation order follows the source: videoId, record lookup, ownership,
file presence, size (strictly greater than `MAX_UPLOAD_SIZE` rejects),
media type; then the temp file is written and the try/finally runs.  Per
JS semantics an error thrown in the `finally` block replaces the try
block's result, whether that was a return or a throw. -/
def handlerUploadVideo (cfg : ApiConfig) (req : UploadRequest) (env : IngestEnv)
    (fs0 : FS) : Outcome :=
  match req.videoId with
  | none => ⟨.error .invalidVideoId, fs0, []⟩
  | some videoId =>
    match cfg.db videoId with
    | none => ⟨.error .recordNotFound, fs0, []⟩
    | some video =>
      if video.userID ≠ req.userID then ⟨.error .ownershipMismatch, fs0, []⟩
      else if req.filePresent = false then ⟨.error .fileMissing, fs0, []⟩
      else if req.fileSize > MAX_UPLOAD_SIZE then ⟨.error .payloadTooLarge, fs0, []⟩
      else if req.fileType ≠ "video/mp4" then ⟨.error .unsupportedMediaType, fs0, []⟩
      else
        let tempFilePath := tempFilePathOf env
        let fs1 := fsWrite tempFilePath req.fileContent fs0
        let b := handlerBody cfg req env video tempFilePath fs1
        let c := cleanup tempFilePath b.fs
        match c.err with
        | some e => ⟨.error e, c.fs, b.recordWrites⟩
        | none => ⟨b.result.map (·.video), c.fs, b.recordWrites⟩

/-- Check of one character against the regex class `[0-9a-f]`. -/
def isHexCharB (c : Char) : Bool :=
  ('0' ≤ c && c ≤ '9') || ('a' ≤ c && c ≤ 'f')

/-- Stripping a literal pattern from the front of a character list;
`some rest` on match. -/
def stripLead : List Char → List Char → Option (List Char)
  | [], cs => some cs
  | _ :: _, [] => none
  | p :: ps, c :: cs => if c = p then stripLead ps cs else none

/-- Check of what follows the category alternative and the slash:
exactly 64 characters of `[0-9a-f]` followed by the literal `.mp4` and
nothing else. -/
def keyTail (rest : List Char) : Bool :=
  rest.length == 68 && (rest.take 64).all isHexCharB && rest.drop 64 == ".mp4".data

/-- Character-list core of the storage-key regex check. -/
def keyPatternCore (cs : List Char) : Bool :=
  match stripLead "landscape/".data cs with
  | some r => keyTail r
  | none =>
    match stripLead "portrait/".data cs with
    | some r => keyTail r
    | none =>
      match stripLead "other/".data cs with
      | some r => keyTail r
      | none => false

/-- Transliteration of the spec's storage-key regex
`^(landscape|portrait|other)/[0-9a-f]{64}\.mp4$`: one of the three
category alternatives followed by `/`, then exactly 64 hex characters,
then the literal `.mp4`, and nothing after it. -/
def matchesKeyPattern (s : String) : Bool :=
  keyPatternCore s.data

/-! Concrete fixtures used by counterexamples, code-bug evaluations and
witnesses. -/

/-- Database holding exactly one video row. -/
def fixtureDb (id : String) (v : Video) : String → Option Video :=
  fun q => if q = id then some v else none

/-- Configuration fixture A. -/
def cfgA : ApiConfig := ⟨"tube", "us-east-2", fixtureDb "vid-1" ⟨"owner-1", none⟩⟩

/-- Request fixture A: a well-formed 2 KiB mp4 upload for `vid-1`. -/
def reqA : UploadRequest := ⟨some "vid-1", "owner-1", true, 2048, "video/mp4", 7⟩

/-- Probe result fixture: ffprobe succeeding on a 1920×1080 stream. -/
def probeHD : ProcResult := ⟨0, ⟨[⟨.num 1920, .num 1080⟩]⟩, ""⟩

/-- Environment fixture where every stage succeeds except the S3 upload. -/
def envUploadFail : IngestEnv := ⟨[171], [5], probeHD, ⟨0, "", 9⟩, false⟩

/-- Environment fixture where every external stage succeeds. -/
def envSuccessA : IngestEnv := ⟨[171], [5], probeHD, ⟨0, "", 9⟩, true⟩

/-- Configuration fixture B. -/
def cfgB : ApiConfig := ⟨"clips", "eu-west-1", fixtureDb "vid-2" ⟨"owner-2", none⟩⟩

/-- Request fixture B: a well-formed 4 KiB mp4 upload for `vid-2`. -/
def reqB : UploadRequest := ⟨some "vid-2", "owner-2", true, 4096, "video/mp4", 8⟩

/-- Environment fixture B where every external stage succeeds. -/
def envSuccessB : IngestEnv := ⟨[18, 52], [1, 2], probeHD, ⟨0, "", 3⟩, true⟩

/-- Empty filesystem fixture. -/
def fsEmpty : FS := fun _ => none

/-- Request fixture violating both the media-type and the size
constraint: declared type `video/webm` and `2^30 + 1` bytes. -/
def reqBad : UploadRequest := ⟨some "vid-1", "owner-1", true, 2 ^ 30 + 1, "video/webm", 7⟩

/-- Request fixture with an unsupported media type but an in-bounds size. -/
def reqWebm : UploadRequest := ⟨some "vid-1", "owner-1", true, 100, "video/webm", 3⟩

/-- Environment fixture with a full 32-byte key randomness, for the
storage-key witness. -/
def envKey32 : IngestEnv := ⟨[0], List.replicate 32 17, probeHD, ⟨0, "", 4⟩, true⟩

/-- Request fixture with the supported type and a size of exactly one
byte above the 1 GB ceiling. -/
def reqBig : UploadRequest := ⟨some "vid-1", "owner-1", true, 2 ^ 30 + 1, "video/mp4", 7⟩

/-- Environment fixture where ffprobe itself fails (non-zero exit). -/
def envProbeFail : IngestEnv := ⟨[171], [5], ⟨1, ⟨[]⟩, "err"⟩, ⟨0, "", 9⟩, true⟩

/-! Helper lemmas shared across the claim theorems. -/

lemma data_append (a b : String) : (a ++ b).data = a.data ++ b.data := rfl

lemma length_append_str (a b : String) : (a ++ b).length = a.length + b.length := by
  rw [← String.length_data, ← String.length_data a, ← String.length_data b, data_append,
    List.length_append]

lemma append_ne_self (a b : String) (hb : b.length ≠ 0) : a ++ b ≠ a := by
  intro h
  have := congrArg String.length h
  rw [length_append_str] at this
  omega

lemma hexChar_isHex : ∀ n < 16, isHexCharB (hexChar n) = true := by decide

lemma byteToHex_isHex (b : ℕ) : ∀ c ∈ byteToHex b, isHexCharB c = true := by
  intro c hc
  have h1 : b / 16 % 16 < 16 := Nat.mod_lt _ (by norm_num)
  have h2 : b % 16 < 16 := Nat.mod_lt _ (by norm_num)
  simp only [byteToHex, List.mem_cons, List.mem_singleton, List.not_mem_nil, or_false] at hc
  rcases hc with rfl | rfl
  · exact hexChar_isHex _ h1
  · exact hexChar_isHex _ h2

lemma bytesToHex_isHex (bs : List ℕ) : ∀ c ∈ (bytesToHex bs).data, isHexCharB c = true := by
  intro c hc
  simp only [bytesToHex, List.mem_flatten, List.mem_map] at hc
  obtain ⟨l, ⟨b, _, rfl⟩, hcl⟩ := hc
  exact byteToHex_isHex b c hcl

lemma bytesToHex_data_length (bs : List ℕ) : (bytesToHex bs).data.length = 2 * bs.length := by
  induction bs with
  | nil => rfl
  | cons b bs ih =>
    simp only [bytesToHex, List.map_cons, List.flatten_cons, List.length_append] at ih ⊢
    simp [byteToHex] at ih ⊢
    omega

lemma stripLead_append (p r : List Char) : stripLead p (p ++ r) = some r := by
  induction p with
  | nil => rfl
  | cons c cs ih => simp [stripLead, ih]

lemma keyTail_hex_mp4 (hex : List Char) (hlen : hex.length = 64)
    (hhex : ∀ c ∈ hex, isHexCharB c = true) : keyTail (hex ++ ".mp4".data) = true := by
  have htake : (hex ++ ".mp4".data).take 64 = hex := List.take_left' hlen
  have hdrop : (hex ++ ".mp4".data).drop 64 = ".mp4".data := List.drop_left' hlen
  have hall : hex.all isHexCharB = true := List.all_eq_true.mpr hhex
  simp [keyTail, htake, hdrop, List.length_append, hlen, hall]

lemma matchesKeyPattern_mk (cat : Category) (hex : String)
    (hlen : hex.data.length = 64) (hhex : ∀ c ∈ hex.data, isHexCharB c = true) :
    matchesKeyPattern (cat.str ++ "/" ++ hex ++ ".mp4") = true := by
  have htail := keyTail_hex_mp4 hex.data hlen hhex
  cases cat
  · have e : (Category.landscape.str ++ "/" ++ hex ++ ".mp4").data
        = "landscape/".data ++ (hex.data ++ ".mp4".data) :=
      List.append_assoc "landscape/".data hex.data ".mp4".data
    rw [matchesKeyPattern, e, keyPatternCore, stripLead_append]
    exact htail
  · have e : (Category.portrait.str ++ "/" ++ hex ++ ".mp4").data
        = "portrait/".data ++ (hex.data ++ ".mp4".data) :=
      List.append_assoc "portrait/".data hex.data ".mp4".data
    rw [matchesKeyPattern, e, keyPatternCore,
      show stripLead "landscape/".data ("portrait/".data ++ (hex.data ++ ".mp4".data))
        = none from rfl, stripLead_append]
    exact htail
  · have e : (Category.other.str ++ "/" ++ hex ++ ".mp4").data
        = "other/".data ++ (hex.data ++ ".mp4".data) :=
      List.append_assoc "other/".data hex.data ".mp4".data
    rw [matchesKeyPattern, e, keyPatternCore,
      show stripLead "landscape/".data ("other/".data ++ (hex.data ++ ".mp4".data))
        = none from rfl,
      show stripLead "portrait/".data ("other/".data ++ (hex.data ++ ".mp4".data))
        = none from rfl, stripLead_append]
    exact htail

lemma handler_staged (cfg : ApiConfig) (req : UploadRequest) (env : IngestEnv) (fs0 : FS)
    (vid : String) (video : Video)
    (h1 : req.videoId = some vid) (h2 : cfg.db vid = some video)
    (h3 : video.userID = req.userID) (h4 : req.filePresent = true)
    (h5 : ¬req.fileSize > MAX_UPLOAD_SIZE) (h6 : req.fileType = "video/mp4") :
    handlerUploadVideo cfg req env fs0 =
      (let b := handlerBody cfg req env video (tempFilePathOf env)
          (fsWrite (tempFilePathOf env) req.fileContent fs0)
       let c := cleanup (tempFilePathOf env) b.fs
       match c.err with
       | some e => ⟨.error e, c.fs, b.recordWrites⟩
       | none => ⟨b.result.map (·.video), c.fs, b.recordWrites⟩) := by
  simp [handlerUploadVideo, h1, h2, h3, h4, h5, h6]

lemma cleanup_processed_missing (temp : String) (fs : FS) (c : ℕ)
    (htemp : fs temp = some c) (hproc : fs (temp ++ ".processed") = none) :
    cleanup temp fs =
      ⟨some (.enoent (temp ++ ".processed")),
        fun q => if q = temp then none else fs q⟩ := by
  have hne : temp ++ ".processed" ≠ temp := append_ne_self _ _ (by decide)
  simp [cleanup, fsDelete, htemp, hne, hproc]

lemma cleanup_error_enoent (temp : String) (fs : FS) (e : IngestError)
    (h : (cleanup temp fs).err = some e) : ∃ p, e = .enoent p := by
  unfold cleanup fsDelete at h
  cases h1 : fs temp with
  | none =>
    simp [h1] at h
    exact ⟨temp, h.symm⟩
  | some c =>
    simp only [h1] at h
    cases h2 : (fun q => if q = temp then none else fs q : FS) (temp ++ ".processed") with
    | none =>
      simp [h2] at h
      exact ⟨temp ++ ".processed", h.symm⟩
    | some d =>
      simp [h2] at h

lemma gvar_error_kinds (p : ProcResult) (e : IngestError)
    (h : getVideoAspectRatio p = .error e) :
    e = .jsTypeError ∨ ∃ m, e = .toolFailure m := by
  unfold getVideoAspectRatio at h
  split at h
  · simp only [Except.error.injEq] at h
    exact Or.inr ⟨_, h.symm⟩
  · split at h
    · simp only [Except.error.injEq] at h
      exact Or.inl h.symm
    · simp at h

lemma pvffs_error_kinds (input : String) (tool : RemuxRun) (fs : FS) (e : IngestError)
    (h : processVideoForFastStart input tool fs = .error e) :
    ∃ m, e = .toolFailure m := by
  unfold processVideoForFastStart at h
  split at h
  · simp only [Except.error.injEq] at h
    exact ⟨_, h.symm⟩
  · simp at h

lemma pvffs_ok_parts (input : String) (tool : RemuxRun) (fs : FS) (out : String) (fs1 : FS)
    (h : processVideoForFastStart input tool fs = .ok (out, fs1)) :
    out = input ++ ".processed.mp4" ∧
    fs1 = fsWrite (input ++ ".processed.mp4") tool.content fs := by
  unfold processVideoForFastStart at h
  split at h
  · simp at h
  · simp only [Except.ok.injEq, Prod.mk.injEq] at h
    exact ⟨h.1.symm, h.2.symm⟩

lemma handlerBody_error_kinds (cfg : ApiConfig) (req : UploadRequest) (env : IngestEnv)
    (video : Video) (temp : String) (fs : FS) (e : IngestError)
    (h : (handlerBody cfg req env video temp fs).result = .error e) :
    e = .uploadFailure ∨ e = .jsTypeError ∨ ∃ m, e = .toolFailure m := by
  unfold handlerBody at h
  split at h
  · next e1 hp =>
    simp only [Except.error.injEq] at h
    subst h
    rcases gvar_error_kinds _ _ hp with h1 | h1
    · exact Or.inr (Or.inl h1)
    · exact Or.inr (Or.inr h1)
  · next cat hp =>
    split at h
    · next e2 hq =>
      simp only [Except.error.injEq] at h
      subst h
      exact Or.inr (Or.inr (pvffs_error_kinds _ _ _ _ hq))
    · next out1 fs1 hq =>
      split at h
      · simp at h
      · simp only [Except.error.injEq] at h
        exact Or.inl h.symm

lemma handlerBody_writes_spec (cfg : ApiConfig) (req : UploadRequest) (env : IngestEnv)
    (video : Video) (temp : String) (fs : FS) :
    ((∃ e, (handlerBody cfg req env video temp fs).result = .error e) ∧
      (handlerBody cfg req env video temp fs).recordWrites = []) ∨
    (∃ ok, (handlerBody cfg req env video temp fs).result = .ok ok ∧
      (handlerBody cfg req env video temp fs).recordWrites = [ok.videoURL] ∧
      env.uploadOk = true) := by
  unfold handlerBody
  split
  · left; exact ⟨⟨_, rfl⟩, rfl⟩
  · split
    · left; exact ⟨⟨_, rfl⟩, rfl⟩
    · split
      · next hu =>
        right
        exact ⟨_, rfl, rfl, hu⟩
      · left; exact ⟨⟨_, rfl⟩, rfl⟩

lemma handlerBody_ok_writes (cfg : ApiConfig) (req : UploadRequest) (env : IngestEnv)
    (video : Video) (temp : String) (fs : FS) (ok : BodyOk)
    (h : (handlerBody cfg req env video temp fs).result = .ok ok) :
    (handlerBody cfg req env video temp fs).recordWrites = [ok.videoURL] := by
  rcases handlerBody_writes_spec cfg req env video temp fs with ⟨⟨e, he⟩, -⟩ | ⟨ok2, hok, hw, -⟩
  · rw [h] at he
    simp at he
  · rw [h] at hok
    simp only [Except.ok.injEq] at hok
    rw [hw, hok]

lemma handlerBody_fs_spec (cfg : ApiConfig) (req : UploadRequest) (env : IngestEnv)
    (video : Video) (temp : String) (fs : FS) :
    (handlerBody cfg req env video temp fs).fs = fs ∨
    (handlerBody cfg req env video temp fs).fs
      = fsWrite (temp ++ ".processed.mp4") env.remux.content fs := by
  unfold handlerBody
  split
  · left; rfl
  · split
    · left; rfl
    · next out1 fs1 hq =>
      obtain ⟨-, h2⟩ := pvffs_ok_parts _ _ _ _ _ hq
      split
      · right; exact h2
      · right; exact h2

lemma processed_ne_processed_mp4 (temp : String) :
    temp ++ ".processed" ≠ temp ++ ".processed.mp4" := by
  intro h
  have hl := congrArg String.length h
  rw [length_append_str, length_append_str] at hl
  rw [show (".processed" : String).length = 10 from rfl,
    show (".processed.mp4" : String).length = 14 from rfl] at hl
  omega

lemma handler_payload_too_large (cfg : ApiConfig) (req : UploadRequest) (env : IngestEnv)
    (fs0 : FS) (vid : String) (video : Video)
    (h1 : req.videoId = some vid) (h2 : cfg.db vid = some video)
    (h3 : video.userID = req.userID) (h4 : req.filePresent = true)
    (h5 : req.fileSize > MAX_UPLOAD_SIZE) :
    handlerUploadVideo cfg req env fs0 = ⟨.error .payloadTooLarge, fs0, []⟩ := by
  simp [handlerUploadVideo, h1, h2, h3, h4, h5]

lemma handler_unsupported_type (cfg : ApiConfig) (req : UploadRequest) (env : IngestEnv)
    (fs0 : FS) (vid : String) (video : Video)
    (h1 : req.videoId = some vid) (h2 : cfg.db vid = some video)
    (h3 : video.userID = req.userID) (h4 : req.filePresent = true)
    (h5 : ¬req.fileSize > MAX_UPLOAD_SIZE) (h6 : req.fileType ≠ "video/mp4") :
    handlerUploadVideo cfg req env fs0 = ⟨.error .unsupportedMediaType, fs0, []⟩ := by
  simp [handlerUploadVideo, h1, h2, h3, h4, h5, h6]

lemma handler_staged_result_kinds (cfg : ApiConfig) (req : UploadRequest) (env : IngestEnv)
    (fs0 : FS) (vid : String) (video : Video)
    (h1 : req.videoId = some vid) (h2 : cfg.db vid = some video)
    (h3 : video.userID = req.userID) (h4 : req.filePresent = true)
    (h5 : ¬req.fileSize > MAX_UPLOAD_SIZE) (h6 : req.fileType = "video/mp4")
    (e : IngestError)
    (h : (handlerUploadVideo cfg req env fs0).result = .error e) :
    (∃ p, e = .enoent p) ∨ e = .uploadFailure ∨ e = .jsTypeError ∨
      ∃ m, e = .toolFailure m := by
  rw [handler_staged cfg req env fs0 vid video h1 h2 h3 h4 h5 h6] at h
  simp only [] at h
  split at h
  · next e2 hc2 =>
    simp only [Except.error.injEq] at h
    obtain ⟨p, hp⟩ := cleanup_error_enoent _ _ _ hc2
    exact Or.inl ⟨p, by rw [← h, hp]⟩
  · next hc2 =>
    cases hb : (handlerBody cfg req env video (tempFilePathOf env)
        (fsWrite (tempFilePathOf env) req.fileContent fs0)).result with
    | error e2 =>
      rw [hb] at h
      simp only [Except.map, Except.error.injEq] at h
      subst h
      rcases handlerBody_error_kinds _ _ _ _ _ _ _ hb with h' | h' | h'
      · exact Or.inr (Or.inl h')
      · exact Or.inr (Or.inr (Or.inl h'))
      · exact Or.inr (Or.inr (Or.inr h'))
    | ok okv =>
      rw [hb] at h
      simp [Except.map] at h

lemma handler_writes_eq (cfg : ApiConfig) (req : UploadRequest) (env : IngestEnv) (fs0 : FS) :
    (handlerUploadVideo cfg req env fs0).recordWrites = [] ∨
    ∃ video fs',
      (handlerUploadVideo cfg req env fs0).recordWrites
        = (handlerBody cfg req env video (tempFilePathOf env) fs').recordWrites := by
  unfold handlerUploadVideo
  split
  · left; rfl
  · split
    · left; rfl
    · split
      · left; rfl
      · split
        · left; rfl
        · split
          · left; rfl
          · split
            · left; rfl
            · simp only []
              split
              · right; exact ⟨_, _, rfl⟩
              · right; exact ⟨_, _, rfl⟩

lemma handler_staged_cleanup_fails (cfg : ApiConfig) (req : UploadRequest) (env : IngestEnv)
    (fs0 : FS) (vid : String) (video : Video)
    (h1 : req.videoId = some vid) (h2 : cfg.db vid = some video)
    (h3 : video.userID = req.userID) (h4 : req.filePresent = true)
    (h5 : ¬req.fileSize > MAX_UPLOAD_SIZE) (h6 : req.fileType = "video/mp4")
    (h0 : fs0 (tempFilePathOf env ++ ".processed") = none) :
    (handlerUploadVideo cfg req env fs0).result
      = .error (.enoent (tempFilePathOf env ++ ".processed")) := by
  rw [handler_staged cfg req env fs0 vid video h1 h2 h3 h4 h5 h6]
  have hne1 : tempFilePathOf env ++ ".processed" ≠ tempFilePathOf env :=
    append_ne_self _ _ (by decide)
  have hne3 : tempFilePathOf env ≠ tempFilePathOf env ++ ".processed.mp4" :=
    Ne.symm (append_ne_self _ _ (by decide))
  have hfs1t : fsWrite (tempFilePathOf env) req.fileContent fs0 (tempFilePathOf env)
      = some req.fileContent := by simp [fsWrite]
  have hfs1p : fsWrite (tempFilePathOf env) req.fileContent fs0
      (tempFilePathOf env ++ ".processed") = none := by
    simp only [fsWrite]
    rw [if_neg hne1, h0]
  have hc : (cleanup (tempFilePathOf env)
      (handlerBody cfg req env video (tempFilePathOf env)
        (fsWrite (tempFilePathOf env) req.fileContent fs0)).fs).err
      = some (.enoent (tempFilePathOf env ++ ".processed")) := by
    rcases handlerBody_fs_spec cfg req env video (tempFilePathOf env)
        (fsWrite (tempFilePathOf env) req.fileContent fs0) with hb | hb
    · rw [hb, cleanup_processed_missing _ _ req.fileContent hfs1t hfs1p]
    · have ht : fsWrite (tempFilePathOf env ++ ".processed.mp4") env.remux.content
          (fsWrite (tempFilePathOf env) req.fileContent fs0) (tempFilePathOf env)
          = some req.fileContent := by
        simp only [fsWrite]
        rw [if_neg hne3]
        simp
      have hp : fsWrite (tempFilePathOf env ++ ".processed.mp4") env.remux.content
          (fsWrite (tempFilePathOf env) req.fileContent fs0)
          (tempFilePathOf env ++ ".processed") = none := by
        simp only [fsWrite]
        rw [if_neg (processed_ne_processed_mp4 (tempFilePathOf env)), if_neg hne1, h0]
      rw [hb, cleanup_processed_missing _ _ req.fileContent ht hp]
  simp [hc]

/-! Claim theorems. -/

/-- Claim C1: for every probed width/height pair, classification evaluates
the floor-based rules in order — `⌊ratio*9⌋ = 16` yields landscape, else
`⌊ratio*16⌋ = 9` yields portrait, else other; in particular probing
1920×1080 yields landscape, 1080×1920 yields portrait, and 1000×1000
yields other. -/
theorem aspect_rules_in_order :
    (∀ r : ℚ, ⌊r * 9⌋ = 16 → classifyRatio r = .landscape) ∧
    (∀ r : ℚ, ⌊r * 9⌋ ≠ 16 → ⌊r * 16⌋ = 9 → classifyRatio r = .portrait) ∧
    (∀ r : ℚ, ⌊r * 9⌋ ≠ 16 → ⌊r * 16⌋ ≠ 9 → classifyRatio r = .other) ∧
    getVideoAspectRatio ⟨0, ⟨[⟨.num 1920, .num 1080⟩]⟩, ""⟩ = .ok .landscape ∧
    getVideoAspectRatio ⟨0, ⟨[⟨.num 1080, .num 1920⟩]⟩, ""⟩ = .ok .portrait ∧
    getVideoAspectRatio ⟨0, ⟨[⟨.num 1000, .num 1000⟩]⟩, ""⟩ = .ok .other := by
  refine ⟨?_, ?_, ?_, ?_, ?_, ?_⟩
  · intro r h; simp [classifyRatio, h]
  · intro r h1 h2; simp [classifyRatio, h1, h2]
  · intro r h1 h2; simp [classifyRatio, h1, h2]
  · with_unfolding_all rfl
  · with_unfolding_all rfl
  · with_unfolding_all rfl

/-- Witness for C1: the first rule applied at the concrete ratio 320/180. -/
theorem aspect_rules_in_order_witness :
    classifyRatio (320 / 180) = .landscape :=
  aspect_rules_in_order.1 (320 / 180) (by with_unfolding_all decide)

/-- Claim C5 counterexample: a probe result with zero exit code whose
first stream has both `width` and `height` absent (undefined) makes
classification return the category `other` instead of failing — the claim
says it must fail with `MalformedProbeOutput` rather than return a
category. -/
theorem probe_missing_fields_counterexample :
    getVideoAspectRatio ⟨0, ⟨[⟨.undef, .undef⟩]⟩, ""⟩ = .ok .other := by
  with_unfolding_all rfl

/-- Claim C5 amended: when zero video streams are reported, classification
fails (with the JS `TypeError` raised by `result.streams[0].width`, not a
structured `MalformedProbeOutput`); but absent or non-numeric
width/height fields on an existing first stream do not make it fail — the
NaN ratio falls through both floor rules and the category `other` is
returned. -/
theorem probe_zero_streams_error_amended :
    (∀ p : ProcResult, p.exitCode = 0 → p.stdout.streams = [] →
      getVideoAspectRatio p = .error .jsTypeError) ∧
    (∀ (p : ProcResult) (s : ProbeStream) (l : List ProbeStream), p.exitCode = 0 →
      p.stdout.streams = s :: l → (s.width = .undef ∨ s.height = .undef) →
      getVideoAspectRatio p = .ok .other) := by
  constructor
  · intro p h0 hs
    simp [getVideoAspectRatio, h0, hs]
  · intro p s l h0 hs hu
    rcases hu with h | h
    · cases hh : s.height <;>
        simp [getVideoAspectRatio, h0, hs, h, hh, jsDiv, classifyJs]
    · cases hw : s.width <;>
        simp [getVideoAspectRatio, h0, hs, h, hw, jsDiv, classifyJs]

/-- Witness for the C5 amended theorem: zero streams at exit code 0. -/
theorem probe_zero_streams_error_amended_witness :
    getVideoAspectRatio ⟨0, ⟨[]⟩, "diag"⟩ = .error .jsTypeError :=
  probe_zero_streams_error_amended.1 ⟨0, ⟨[]⟩, "diag"⟩ rfl rfl

/-- Claim C9: an external tool invocation (probe or remux) produces a tool
failure iff its exit code is non-zero, and the failure carries the
captured stderr text in its message; a zero exit code never produces a
tool failure. -/
theorem tool_failure_iff_nonzero_exit :
    (∀ p : ProcResult,
      (∃ m, getVideoAspectRatio p = .error (.toolFailure m)) ↔ p.exitCode ≠ 0) ∧
    (∀ p : ProcResult, p.exitCode ≠ 0 →
      getVideoAspectRatio p = .error (.toolFailure ("ffprobe error: " ++ p.stderr))) ∧
    (∀ (input : String) (tool : RemuxRun) (fs : FS),
      (∃ m, processVideoForFastStart input tool fs = .error (.toolFailure m))
        ↔ tool.exitCode ≠ 0) ∧
    (∀ (input : String) (tool : RemuxRun) (fs : FS), tool.exitCode ≠ 0 →
      processVideoForFastStart input tool fs
        = .error (.toolFailure ("FFmpeg error: " ++ tool.stderr))) := by
  refine ⟨?_, ?_, ?_, ?_⟩
  · intro p
    constructor
    · rintro ⟨m, hm⟩ h0
      rcases hs : p.stdout.streams with _ | ⟨s, l⟩ <;>
        simp [getVideoAspectRatio, h0, hs] at hm
    · intro h
      exact ⟨"ffprobe error: " ++ p.stderr, by simp [getVideoAspectRatio, h]⟩
  · intro p h
    simp [getVideoAspectRatio, h]
  · intro input tool fs
    constructor
    · rintro ⟨m, hm⟩ h0
      simp [processVideoForFastStart, h0] at hm
    · intro h
      exact ⟨"FFmpeg error: " ++ tool.stderr, by simp [processVideoForFastStart, h]⟩
  · intro input tool fs h
    simp [processVideoForFastStart, h]

/-- Witness for C9: ffprobe exiting 1 with stderr `boom` fails with the
message built from that stderr. -/
theorem tool_failure_iff_nonzero_exit_witness :
    getVideoAspectRatio ⟨1, ⟨[]⟩, "boom"⟩ = .error (.toolFailure "ffprobe error: boom") :=
  tool_failure_iff_nonzero_exit.2.1 ⟨1, ⟨[]⟩, "boom"⟩ (by decide)

/-- Claim C8: on a zero ffmpeg exit the fast-start rewrite returns the
deterministic sibling path `<input>.processed.mp4`; the filesystem after
it holds the tool's output at that path, the input file's contents are
unchanged, and no other path is touched. -/
theorem fast_start_sibling_output :
    ∀ (input : String) (tool : RemuxRun) (fs : FS), tool.exitCode = 0 →
      processVideoForFastStart input tool fs =
        .ok (input ++ ".processed.mp4",
          fsWrite (input ++ ".processed.mp4") tool.content fs) ∧
      fsWrite (input ++ ".processed.mp4") tool.content fs input = fs input ∧
      fsWrite (input ++ ".processed.mp4") tool.content fs (input ++ ".processed.mp4")
        = some tool.content ∧
      ∀ q, q ≠ input ++ ".processed.mp4" →
        fsWrite (input ++ ".processed.mp4") tool.content fs q = fs q := by
  intro input tool fs h0
  have hne : input ≠ input ++ ".processed.mp4" :=
    Ne.symm (append_ne_self _ _ (by decide))
  refine ⟨by simp [processVideoForFastStart, h0], ?_, ?_, ?_⟩
  · simp only [fsWrite]
    rw [if_neg hne]
  · simp [fsWrite]
  · intro q hq
    simp only [fsWrite]
    rw [if_neg hq]

/-- Witness for C8: a concrete rewrite of `/tmp/a.mp4` with exit code 0. -/
theorem fast_start_sibling_output_witness :
    processVideoForFastStart "/tmp/a.mp4" ⟨0, "", 5⟩ (fun _ => none) =
      .ok ("/tmp/a.mp4.processed.mp4",
        fsWrite "/tmp/a.mp4.processed.mp4" 5 (fun _ => none)) :=
  (fast_start_sibling_output "/tmp/a.mp4" ⟨0, "", 5⟩ (fun _ => none) rfl).1


/-- Claim C3: for every ingest whose pipeline reaches the Recorded state
(the try block runs to `respondWithJSON(200, video)`), the storage key the
object was uploaded under matches
`^(landscape|portrait|other)/[0-9a-f]{64}\\.mp4$`, and the address
returned and attached to the record is exactly
`https://<bucket>.s3.<region>.amazonaws.com/<key>`. -/
theorem storage_key_and_address :
    ∀ (cfg : ApiConfig) (req : UploadRequest) (env : IngestEnv) (video : Video)
      (temp : String) (fs : FS) (ok : BodyOk),
      env.keyRand.length = 32 → req.fileType = "video/mp4" →
      (handlerBody cfg req env video temp fs).result = .ok ok →
      matchesKeyPattern ok.fileKey = true ∧
      ok.videoURL = "https://" ++ cfg.s3Bucket ++ ".s3." ++ cfg.s3Region
          ++ ".amazonaws.com/" ++ ok.fileKey ∧
      ok.video.videoURL = some ok.videoURL ∧
      (handlerBody cfg req env video temp fs).recordWrites = [ok.videoURL] := by
  intro cfg req env video temp fs ok hkr hmp4 h
  have h4 := handlerBody_ok_writes cfg req env video temp fs ok h
  unfold handlerBody at h
  split at h
  · simp at h
  · next cat hp =>
    split at h
    · simp at h
    · next out1 fs1 hq =>
      split at h
      · next hu =>
        simp only [Except.ok.injEq] at h
        subst h
        refine ⟨?_, rfl, rfl, h4⟩
        show matchesKeyPattern
          (cat.str ++ "/" ++ bytesToHex env.keyRand ++ mediaTypeToExt req.fileType) = true
        rw [hmp4]
        exact matchesKeyPattern_mk cat (bytesToHex env.keyRand)
          (by rw [bytesToHex_data_length, hkr]) (bytesToHex_isHex env.keyRand)
      · simp at h

/-- Witness for C3: a concrete successful body run; its key matches the
pattern. -/
theorem storage_key_and_address_witness :
    matchesKeyPattern
      "landscape/1111111111111111111111111111111111111111111111111111111111111111.mp4"
      = true :=
  (storage_key_and_address cfgA reqA envKey32 ⟨"owner-1", none⟩ "/tmp/t.mp4" fsEmpty
    ⟨⟨"owner-1",
        some "https://tube.s3.us-east-2.amazonaws.com/landscape/1111111111111111111111111111111111111111111111111111111111111111.mp4"⟩,
      "landscape/1111111111111111111111111111111111111111111111111111111111111111.mp4",
      "https://tube.s3.us-east-2.amazonaws.com/landscape/1111111111111111111111111111111111111111111111111111111111111111.mp4"⟩
    rfl rfl (by with_unfolding_all rfl)).1

/-- Claim C4 counterexample: a request whose declared media type is
`video/webm` AND whose size is `2^30 + 1` is rejected with
`PayloadTooLarge`, not with `UnsupportedMediaType` as the claim requires
for every request with an unsupported media type — the size check runs
first. -/
theorem size_checked_before_media_type_counterexample :
    (handlerUploadVideo cfgA reqBad envSuccessA fsEmpty).result = .error .payloadTooLarge ∧
    IngestError.payloadTooLarge ≠ IngestError.unsupportedMediaType :=
  ⟨rfl, by decide⟩

/-- Claim C4 amended: the size check is evaluated before the media-type
check, so any request exceeding the ceiling is rejected with
`PayloadTooLarge` (even when its media type is also unsupported); a
request within the ceiling whose declared type is not `video/mp4` is
rejected with `UnsupportedMediaType`; both rejections leave the
filesystem untouched and perform no record write, so they happen before
any temp file is created. -/
theorem validation_rejects_before_staging :
    ∀ (cfg : ApiConfig) (req : UploadRequest) (env : IngestEnv) (fs0 : FS)
      (vid : String) (video : Video),
      req.videoId = some vid → cfg.db vid = some video → video.userID = req.userID →
      req.filePresent = true →
      ((req.fileSize > MAX_UPLOAD_SIZE →
        handlerUploadVideo cfg req env fs0 = ⟨.error .payloadTooLarge, fs0, []⟩) ∧
      (req.fileSize ≤ MAX_UPLOAD_SIZE → req.fileType ≠ "video/mp4" →
        handlerUploadVideo cfg req env fs0 = ⟨.error .unsupportedMediaType, fs0, []⟩)) := by
  intro cfg req env fs0 vid video h1 h2 h3 h4
  constructor
  · intro h5
    exact handler_payload_too_large cfg req env fs0 vid video h1 h2 h3 h4 h5
  · intro h5 h6
    exact handler_unsupported_type cfg req env fs0 vid video h1 h2 h3 h4
      (not_lt.mpr h5) h6

/-- Witness for the C4 amended theorem: an in-bounds `video/webm` request
is rejected with `UnsupportedMediaType` and the filesystem is untouched. -/
theorem validation_rejects_before_staging_witness :
    handlerUploadVideo cfgA reqWebm envSuccessA fsEmpty
      = ⟨.error .unsupportedMediaType, fsEmpty, []⟩ :=
  (validation_rejects_before_staging cfgA reqWebm envSuccessA fsEmpty "vid-1"
    ⟨"owner-1", none⟩ rfl rfl rfl rfl).2 (by decide) (by decide)

/-- Claim C10: the upload ceiling is `1 <<< 30 = 2^30` bytes and the size
validation rejects with `PayloadTooLarge` exactly the requests whose size
is strictly greater than `2^30`; the boundary value `2^30` itself passes. -/
theorem size_limit_boundary :
    MAX_UPLOAD_SIZE = 2 ^ 30 ∧
    ∀ (cfg : ApiConfig) (req : UploadRequest) (env : IngestEnv) (fs0 : FS)
      (vid : String) (video : Video),
      req.videoId = some vid → cfg.db vid = some video → video.userID = req.userID →
      req.filePresent = true →
      ((handlerUploadVideo cfg req env fs0).result = .error .payloadTooLarge
        ↔ req.fileSize > 2 ^ 30) := by
  have hmax : MAX_UPLOAD_SIZE = 2 ^ 30 := by decide
  refine ⟨hmax, ?_⟩
  intro cfg req env fs0 vid video h1 h2 h3 h4
  constructor
  · intro h
    by_contra hgt
    push_neg at hgt
    have h5 : ¬req.fileSize > MAX_UPLOAD_SIZE := by rw [hmax]; omega
    by_cases h6 : req.fileType = "video/mp4"
    · rcases handler_staged_result_kinds cfg req env fs0 vid video h1 h2 h3 h4 h5 h6 _ h
        with ⟨p, hp⟩ | he | he | ⟨m, hm⟩
      · simp at hp
      · simp at he
      · simp at he
      · simp at hm
    · rw [handler_unsupported_type cfg req env fs0 vid video h1 h2 h3 h4 h5 h6] at h
      simp at h
  · intro h
    rw [handler_payload_too_large cfg req env fs0 vid video h1 h2 h3 h4 (by rw [hmax]; omega)]

/-- Witness for C10: one byte above the ceiling is rejected as too large. -/
theorem size_limit_boundary_witness :
    (handlerUploadVideo cfgA reqBig envSuccessA fsEmpty).result = .error .payloadTooLarge :=
  (size_limit_boundary.2 cfgA reqBig envSuccessA fsEmpty "vid-1" ⟨"owner-1", none⟩
    rfl rfl rfl rfl).mpr (by decide)

/-- Claim C6 counterexample: an ingest in which every stage succeeds — so
the record is updated with the new address — still fails overall, because
the second delete of the `finally` block targets the never-created path
`<temp>.processed` and its error replaces the success; this is a failing
ingest whose record was mutated, contradicting the claim that on every
failing ingest the record is left unchanged. -/
theorem record_persists_on_failed_ingest_counterexample :
    (handlerUploadVideo cfgB reqB envSuccessB fsEmpty).result
      = .error (.enoent "/tmp/video-1234.mp4.processed") ∧
    (handlerUploadVideo cfgB reqB envSuccessB fsEmpty).recordWrites
      = ["https://clips.s3.eu-west-1.amazonaws.com/landscape/0102.mp4"] := by
  constructor <;> with_unfolding_all rfl

/-- Claim C6 amended: the record is written at most once per ingest, and
only when the S3 upload succeeded; every ingest whose try block fails (at
validation, staging, classification, remux or upload) performs no record
write; however an ingest can still fail during temp-file cleanup after
the record update, in which case the updated record persists. -/
theorem record_written_once_after_upload :
    (∀ (cfg : ApiConfig) (req : UploadRequest) (env : IngestEnv) (fs0 : FS),
      (handlerUploadVideo cfg req env fs0).recordWrites.length ≤ 1) ∧
    (∀ (cfg : ApiConfig) (req : UploadRequest) (env : IngestEnv) (fs0 : FS),
      (handlerUploadVideo cfg req env fs0).recordWrites ≠ [] → env.uploadOk = true) ∧
    (∀ (cfg : ApiConfig) (req : UploadRequest) (env : IngestEnv) (video : Video)
      (temp : String) (fs : FS) (e : IngestError),
      (handlerBody cfg req env video temp fs).result = .error e →
      (handlerBody cfg req env video temp fs).recordWrites = []) := by
  refine ⟨?_, ?_, ?_⟩
  · intro cfg req env fs0
    rcases handler_writes_eq cfg req env fs0 with hw | ⟨video, fs1, hw⟩
    · rw [hw]; simp
    · rw [hw]
      rcases handlerBody_writes_spec cfg req env video (tempFilePathOf env) fs1
        with ⟨-, hw2⟩ | ⟨ok, -, hw2, -⟩ <;> rw [hw2] <;> simp
  · intro cfg req env fs0 hne
    rcases handler_writes_eq cfg req env fs0 with hw | ⟨video, fs1, hw⟩
    · exact absurd hw hne
    · rw [hw] at hne
      rcases handlerBody_writes_spec cfg req env video (tempFilePathOf env) fs1
        with ⟨-, hw2⟩ | ⟨ok, -, -, hu⟩
      · exact absurd hw2 hne
      · exact hu
  · intro cfg req env video temp fs e h
    rcases handlerBody_writes_spec cfg req env video temp fs
      with ⟨-, hw2⟩ | ⟨ok, hok, -, -⟩
    · exact hw2
    · rw [h] at hok
      simp at hok

/-- Witness for the C6 amended theorem: a probe failure performs no record
write. -/
theorem record_written_once_after_upload_witness :
    (handlerBody cfgA reqA envProbeFail ⟨"owner-1", none⟩ "/tmp/t.mp4" fsEmpty).recordWrites
      = [] :=
  record_written_once_after_upload.2.2 cfgA reqA envProbeFail ⟨"owner-1", none⟩
    "/tmp/t.mp4" fsEmpty (.toolFailure "ffprobe error: err") (by with_unfolding_all rfl)

/-- Claim C7 counterexample: deleting an already-removed file raises an
error, and in a fully successful ingest (record written) the unguarded
cleanup error replaces the success result — both halves of the claim
fail. -/
theorem cleanup_error_replaces_result_counterexample :
    fsDelete "/tmp/already-gone.mp4" fsEmpty = .error (.enoent "/tmp/already-gone.mp4") ∧
    (handlerUploadVideo cfgA reqA envSuccessA fsEmpty).recordWrites
      = ["https://tube.s3.us-east-2.amazonaws.com/landscape/05.mp4"] ∧
    (handlerUploadVideo cfgA reqA envSuccessA fsEmpty).result
      = .error (.enoent "/tmp/video-ab.mp4.processed") := by
  refine ⟨rfl, ?_, ?_⟩ <;> with_unfolding_all rfl

/-- Claim C7 amended: cleanup is not best-effort — deleting an
already-removed (non-existent) file is an error (`ENOENT`), and because
the deletes in the `finally` block are unguarded, in every ingest that
reaches staging (with no alien `<temp>.processed` file pre-existing) the
`ENOENT` error of the second delete escalates and replaces the original
success or failure result of the ingest. -/
theorem cleanup_not_best_effort :
    (∀ (path : String) (fs : FS), fs path = none →
      fsDelete path fs = .error (.enoent path)) ∧
    (∀ (cfg : ApiConfig) (req : UploadRequest) (env : IngestEnv) (fs0 : FS)
      (vid : String) (video : Video),
      req.videoId = some vid → cfg.db vid = some video → video.userID = req.userID →
      req.filePresent = true → ¬req.fileSize > MAX_UPLOAD_SIZE →
      req.fileType = "video/mp4" →
      fs0 (tempFilePathOf env ++ ".processed") = none →
      (handlerUploadVideo cfg req env fs0).result
        = .error (.enoent (tempFilePathOf env ++ ".processed"))) := by
  constructor
  · intro path fs h
    simp [fsDelete, h]
  · intro cfg req env fs0 vid video h1 h2 h3 h4 h5 h6 h0
    exact handler_staged_cleanup_fails cfg req env fs0 vid video h1 h2 h3 h4 h5 h6 h0

/-- Witness for the C7 amended theorem: deleting a non-existent path on
the empty filesystem errors. -/
theorem cleanup_not_best_effort_witness :
    fsDelete "/tmp/zz.mp4" fsEmpty = .error (.enoent "/tmp/zz.mp4") :=
  cleanup_not_best_effort.1 "/tmp/zz.mp4" fsEmpty rfl

/-- Claim C2 (code-bug evaluation): an ingest that fails at the Uploaded
stage leaves the rewritten temp file `<temp>.processed.mp4` on disk — the
`finally` block deletes `<temp>.processed`, a path the pipeline never
created (and the error of that delete replaces the upload failure), while the
file the rewriter actually created survives. -/
theorem cleanup_leaves_rewritten_file :
    (handlerUploadVideo cfgA reqA envUploadFail fsEmpty).fs "/tmp/video-ab.mp4.processed.mp4"
      = some 9 ∧
    (handlerUploadVideo cfgA reqA envUploadFail fsEmpty).result
      = .error (.enoent "/tmp/video-ab.mp4.processed") := by
  constructor <;> with_unfolding_all rfl

end VideoIngest
